import Mathlib

/-!
Verification development for the Neural News article-analysis pipeline.

The Python sources under `src/utils/` are shallowly embedded below:
pure string processing is translated directly; network calls (HTTP fetch,
LLM completion) and the BeautifulSoup DOM are abstracted as explicit
inputs, since only the repository's own logic is under verification.
Python machine behaviour that matters here — string falsiness, `dict`
semantics, `re` pattern behaviour for the exact patterns in the source,
`json.loads` — is modelled explicitly and noted at each definition.
-/

set_option maxRecDepth 4096

/-! ## Python character/string primitives -/

/-- Python `str.strip()` whitespace set, restricted to ASCII
(the strings handled by this pipeline). Matches Python's `\s`. -/
def isPySpace (c : Char) : Bool :=
  c == ' ' || c == '\t' || c == '\n' || c == '\r' || c == '\x0b' || c == '\x0c'

/-- Python `str.strip()`. -/
def pyStrip (s : String) : String :=
  String.mk (((s.data.dropWhile isPySpace).reverse.dropWhile isPySpace).reverse)

/-- Line-break characters recognised by Python `str.splitlines()` (ASCII
and the latin-1 NEL; `\r\n` is handled as a single break by the splitter). -/
def isLineBreak (c : Char) : Bool :=
  c == '\n' || c == '\r' || c == '\x0b' || c == '\x0c' ||
  c == '\x1c' || c == '\x1d' || c == '\x1e' || c == '\x85'

/-- Worker for `pySplitLines`; `fuel` only bounds the recursion, it is
always called with enough fuel to finish. -/
def splitLinesGo (fuel : Nat) (s : List Char) : List (List Char) :=
  match fuel with
  | 0 => [s]
  | fuel + 1 =>
    match s with
    | [] => []
    | _ =>
      let line := s.takeWhile (fun c => !(isLineBreak c))
      let rest := s.dropWhile (fun c => !(isLineBreak c))
      match rest with
      | [] => [line]
      | '\r' :: '\n' :: rest2 => line :: splitLinesGo fuel rest2
      | _ :: rest2 => line :: splitLinesGo fuel rest2

/-- Python `str.splitlines()`: a break character terminates a line, and a
trailing terminator does not produce a final empty line. -/
def pySplitLines (s : String) : List String :=
  (splitLinesGo (s.data.length + 1) s.data).map String.mk

/-- One pass of Python `re.sub(r'\s+', ' ', s)`: each maximal whitespace
run is replaced by a single space; `prev` records whether the previous
character belonged to a run already rewritten. -/
def collapseAux : List Char → Bool → List Char
  | [], _ => []
  | c :: rest, prev =>
    if isPySpace c then
      if prev then collapseAux rest true else ' ' :: collapseAux rest true
    else c :: collapseAux rest false

/-- Python `re.sub(r'\s+', ' ', s)`. -/
def collapseWs (s : String) : String :=
  String.mk (collapseAux s.data false)

/-- `true` iff no two consecutive characters are both whitespace. -/
def noWsRunB : List Char → Bool
  | a :: b :: rest => (!(isPySpace a && isPySpace b)) && noWsRunB (b :: rest)
  | _ => true

/-- Case-insensitive prefix test (ASCII lowering), modelling
`re.IGNORECASE` matching of a literal. -/
def startsWithCI : List Char → List Char → Bool
  | [], _ => true
  | _ :: _, [] => false
  | p :: ps, c :: cs => (p.toLower == c.toLower) && startsWithCI ps cs

/-- First case-insensitive occurrence of `pat` in `s`; returns the suffix
of `s` that follows the matched occurrence. Models where `re.search`
with an `IGNORECASE` literal prefix first anchors. -/
def findCI (pat : List Char) (s : List Char) : Option (List Char) :=
  match s with
  | [] => if startsWithCI pat [] then some [] else none
  | _ :: rest =>
    if startsWithCI pat s then some (s.drop pat.length)
    else findCI pat rest

/-- Lazy `(.*?)` with `re.DOTALL` followed by a lookahead: the shortest
prefix of `s` after which `look` holds, or `none` when no split works. -/
def lazyCap (look : List Char → Bool) (s : List Char) : Option (List Char) :=
  if look s then some []
  else
    match s with
    | [] => none
    | c :: rest => (lazyCap look rest).map (fun t => c :: t)

/-- Lazy `(.+?)` with `re.DOTALL` followed by a lookahead: at least one
character is consumed, then as in `lazyCap`. -/
def lazyCapPlus (look : List Char → Bool) (s : List Char) : Option (List Char) :=
  match s with
  | [] => none
  | c :: rest => (lazyCap look rest).map (fun t => c :: t)

/-- Split `s` at the first occurrence of the non-empty separator `sep`:
the part before it and the part after it. -/
def breakOnSep (sep : List Char) (s : List Char) : Option (List Char × List Char) :=
  match s with
  | [] => none
  | c :: rest =>
    if sep.isPrefixOf s then some ([], s.drop sep.length)
    else (breakOnSep sep rest).map (fun p => (c :: p.1, p.2))

/-- Worker for `pySplit`; `fuel` only bounds the recursion. -/
def pySplitGo (fuel : Nat) (sep : List Char) (s : List Char) : List (List Char) :=
  match fuel with
  | 0 => [s]
  | fuel + 1 =>
    match breakOnSep sep s with
    | none => [s]
    | some (a, rest) => a :: pySplitGo fuel sep rest

/-- Python `str.split(sep)` for a non-empty separator: non-overlapping
splits scanning left to right, keeping empty pieces. -/
def pySplit (s sep : String) : List String :=
  (pySplitGo (s.data.length + 1) sep.data s.data).map String.mk

/-- Python `str.startswith`. -/
def pyStartsWith (s pat : String) : Bool :=
  pat.data.isPrefixOf s.data

/-! ## JSON values and a model of Python `json.loads` -/

/-- JSON values as produced by `json.loads`. Numbers keep their source
token (the claims verified here never compare numeric values), and
objects carry their fields in insertion order with duplicate keys
already resolved to the last occurrence, as a Python `dict` does. -/
inductive JsonVal where
  | null : JsonVal
  | bool : Bool → JsonVal
  | num : String → JsonVal
  | str : String → JsonVal
  | arr : List JsonVal → JsonVal
  | obj : List (String × JsonVal) → JsonVal
deriving Inhabited

/-- Python `dict` assignment on an association list: replace in place if
the key exists, else append. -/
def insertReplace (fs : List (String × JsonVal)) (k : String) (v : JsonVal) :
    List (String × JsonVal) :=
  match fs with
  | [] => [(k, v)]
  | (k0, v0) :: rest =>
    if k0 = k then (k0, v) :: rest else (k0, v0) :: insertReplace rest k v

/-- Python `dict` lookup on an association list (keys are unique by
construction, so first match suffices). -/
def jLookup (fs : List (String × JsonVal)) (k : String) : Option JsonVal :=
  match fs with
  | [] => none
  | (k0, v0) :: rest => if k0 = k then some v0 else jLookup rest k

/-- Whitespace skipped by Python's JSON decoder between tokens. -/
def isJsonWs (c : Char) : Bool :=
  c == ' ' || c == '\t' || c == '\n' || c == '\r'

def skipWsJ (s : List Char) : List Char := s.dropWhile isJsonWs

def hexDigitVal (c : Char) : Option Nat :=
  if '0' ≤ c ∧ c ≤ '9' then some (c.toNat - 48)
  else if 'a' ≤ c ∧ c ≤ 'f' then some (c.toNat - 87)
  else if 'A' ≤ c ∧ c ≤ 'F' then some (c.toNat - 55)
  else none

/-- JSON string body after the opening quote, in Python's strict mode:
raw control characters are rejected, the standard escapes and `\uXXXX`
are decoded (surrogate pairing is not modelled; the sources never use
it). Returns the decoded string and the input after the closing quote. -/
def parseJString (fuel : Nat) (s : List Char) (acc : List Char) :
    Option (String × List Char) :=
  match fuel with
  | 0 => none
  | fuel + 1 =>
    match s with
    | [] => none
    | '"' :: rest => some (String.mk acc.reverse, rest)
    | '\\' :: e :: rest =>
      match e with
      | '"' => parseJString fuel rest ('"' :: acc)
      | '\\' => parseJString fuel rest ('\\' :: acc)
      | '/' => parseJString fuel rest ('/' :: acc)
      | 'b' => parseJString fuel rest ('\x08' :: acc)
      | 'f' => parseJString fuel rest ('\x0c' :: acc)
      | 'n' => parseJString fuel rest ('\n' :: acc)
      | 'r' => parseJString fuel rest ('\r' :: acc)
      | 't' => parseJString fuel rest ('\t' :: acc)
      | 'u' =>
        match rest with
        | h1 :: h2 :: h3 :: h4 :: rest2 =>
          match hexDigitVal h1, hexDigitVal h2, hexDigitVal h3, hexDigitVal h4 with
          | some a, some b, some c, some d =>
            parseJString fuel rest2 (Char.ofNat (((a * 16 + b) * 16 + c) * 16 + d) :: acc)
          | _, _, _, _ => none
        | _ => none
      | _ => none
    | c :: rest =>
      if c.toNat < 32 then none else parseJString fuel rest (c :: acc)

def jsonDigits (s : List Char) : List Char × List Char :=
  (s.takeWhile Char.isDigit, s.dropWhile Char.isDigit)

/-- Optional fraction and exponent after the integer part of a JSON
number; a malformed tail is simply not consumed (the decoder then fails
on the leftover characters, as Python's does). -/
def jsonNumTail (intPart : List Char) (s : List Char) : String × List Char :=
  let fr :=
    match s with
    | '.' :: rest =>
      let ds := jsonDigits rest
      if ds.1.isEmpty then (([] : List Char), s) else ('.' :: ds.1, ds.2)
    | _ => ([], s)
  let ex :=
    match fr.2 with
    | e :: rest =>
      if e == 'e' || e == 'E' then
        let sg :=
          match rest with
          | '+' :: r => (['+'], r)
          | '-' :: r => (['-'], r)
          | _ => (([] : List Char), rest)
        let ds := jsonDigits sg.2
        if ds.1.isEmpty then (([] : List Char), fr.2) else (e :: (sg.1 ++ ds.1), ds.2)
      else ([], fr.2)
    | [] => ([], fr.2)
  (String.mk (intPart ++ fr.1 ++ ex.1), ex.2)

/-- A JSON number token (leading zeros rejected, per the grammar). -/
def parseJNumber (s : List Char) : Option (String × List Char) :=
  let sg :=
    match s with
    | '-' :: rest => ((['-'] : List Char), rest)
    | _ => ([], s)
  match sg.2 with
  | '0' :: rest => some (jsonNumTail (sg.1 ++ ['0']) rest)
  | c :: _ =>
    if c.isDigit then
      let ds := jsonDigits sg.2
      some (jsonNumTail (sg.1 ++ ds.1) ds.2)
    else none
  | [] => none

/-- Decoder state: a plain value, or the tail of an array/object whose
already-parsed items are carried along. -/
inductive PMode where
  | val : PMode
  | arrTail : List JsonVal → PMode
  | objTail : List (String × JsonVal) → PMode

/-- Recursive-descent JSON decoder mirroring Python `json.loads`
(including the `NaN`/`Infinity` extensions Python accepts by default).
`fuel` only bounds recursion depth; callers supply enough to finish. -/
def parseJ (fuel : Nat) (m : PMode) (s : List Char) : Option (JsonVal × List Char) :=
  match fuel with
  | 0 => none
  | fuel + 1 =>
    match m with
    | .val =>
      let s := skipWsJ s
      match s with
      | [] => none
      | '\x7b' :: rest =>
        (match skipWsJ rest with
         | '\x7d' :: r3 => some (.obj [], r3)
         | _ => parseJ fuel (.objTail []) rest)
      | '[' :: rest =>
        (match skipWsJ rest with
         | ']' :: r3 => some (.arr [], r3)
         | _ => parseJ fuel (.arrTail []) rest)
      | '"' :: rest =>
        (parseJString (rest.length + 1) rest []).map (fun p => (.str p.1, p.2))
      | _ =>
        if ("true".data).isPrefixOf s then some (.bool true, s.drop 4)
        else if ("false".data).isPrefixOf s then some (.bool false, s.drop 5)
        else if ("null".data).isPrefixOf s then some (.null, s.drop 4)
        else if ("NaN".data).isPrefixOf s then some (.num "NaN", s.drop 3)
        else if ("Infinity".data).isPrefixOf s then some (.num "Infinity", s.drop 8)
        else if ("-Infinity".data).isPrefixOf s then some (.num "-Infinity", s.drop 9)
        else
          match parseJNumber s with
          | some (raw, r) => some (.num raw, r)
          | none => none
    | .arrTail acc =>
      match parseJ fuel .val s with
      | none => none
      | some (v, r) =>
        match skipWsJ r with
        | ',' :: r3 => parseJ fuel (.arrTail (acc ++ [v])) r3
        | ']' :: r3 => some (.arr (acc ++ [v]), r3)
        | _ => none
    | .objTail acc =>
      match skipWsJ s with
      | '"' :: rest =>
        (match parseJString (rest.length + 1) rest [] with
         | none => none
         | some (k, r) =>
           match skipWsJ r with
           | ':' :: r3 =>
             (match parseJ fuel .val r3 with
              | none => none
              | some (v, r4) =>
                match skipWsJ r4 with
                | ',' :: r6 => parseJ fuel (.objTail (insertReplace acc k v)) r6
                | '\x7d' :: r6 => some (.obj (insertReplace acc k v), r6)
                | _ => none)
           | _ => none)
      | _ => none

/-- Python `json.loads`: the whole input, up to surrounding whitespace,
must be one JSON document. -/
def jsonParse (s : String) : Option JsonVal :=
  match parseJ (4 * s.data.length + 8) .val s.data with
  | some (v, rest) => if skipWsJ rest = [] then some v else none
  | none => none

/-- Python falsiness of a `json.loads` result: `None`, `False`, `0`
(any numeric zero), `""`, `[]` and an empty dict are falsy. -/
def numIsZero (raw : String) : Bool :=
  let m := raw.data.takeWhile (fun c => !(c == 'e' || c == 'E'))
  m.all (fun c => c == '0' || c == '.' || c == '-') && m.any (fun c => c == '0')

def jsonTruthy : JsonVal → Bool
  | .null => false
  | .bool b => b
  | .num raw => !(numIsZero raw)
  | .str s => !(s == "")
  | .arr items => !items.isEmpty
  | .obj fs => !fs.isEmpty

/-! ## `src/utils/analyzer.py` -/

/-- One attempt of the regex `\x7b[^\x7b\x7d]*(?:\x7b[^\x7b\x7d]*\x7d[^\x7b\x7d]*)*\x7d`
at the character just after an opening brace: runs of non-brace
characters, optionally interleaved with one-level-deep `\x7b...\x7d`
groups, ending at the closing brace of the outer object. All regex
parts are greedy over disjoint character sets, so the match is
deterministic. Returns the matched characters after the opening brace
(including the final close brace) and the remaining input. -/
def braceInner (fuel : Nat) (s : List Char) : Option (List Char × List Char) :=
  match fuel with
  | 0 => none
  | fuel + 1 =>
    let a := s.takeWhile (fun c => !(c == '\x7b' || c == '\x7d'))
    let r := s.dropWhile (fun c => !(c == '\x7b' || c == '\x7d'))
    match r with
    | '\x7d' :: rest => some (a ++ ['\x7d'], rest)
    | '\x7b' :: rest2 =>
      let b := rest2.takeWhile (fun c => !(c == '\x7b' || c == '\x7d'))
      let r2 := rest2.dropWhile (fun c => !(c == '\x7b' || c == '\x7d'))
      (match r2 with
       | '\x7d' :: rest3 =>
         (braceInner fuel rest3).map
           (fun p => (a ++ '\x7b' :: b ++ '\x7d' :: p.1, p.2))
       | _ => none)
    | _ => none

/-- `re.findall` of the brace pattern above: non-overlapping matches,
scanning left to right and resuming after each match. -/
def findallBraces (fuel : Nat) (s : List Char) : List (List Char) :=
  match fuel with
  | 0 => []
  | fuel + 1 =>
    match s with
    | [] => []
    | '\x7b' :: rest =>
      (match braceInner (rest.length + 1) rest with
       | some (body, rest2) => ('\x7b' :: body) :: findallBraces fuel rest2
       | none => findallBraces fuel rest)
    | _ :: rest => findallBraces fuel rest

/-- First element of `l` on which `f` succeeds. -/
def firstSome (f : List Char → Option JsonVal) : List (List Char) → Option JsonVal
  | [] => none
  | m :: rest =>
    match f m with
    | some v => some v
    | none => firstSome f rest

/-- `analyzer.extract_json_from_text`: try `json.loads` on each
brace-pattern match in order, returning the first that parses. -/
def extract_json_from_text (text : String) : Option JsonVal :=
  firstSome (fun m => jsonParse (String.mk m))
    (findallBraces (text.data.length + 1) text.data)

/-- The pydantic model `TechnologyNewsAnalysis`: six required string
fields. -/
structure TechnologyNewsAnalysis where
  feed_title : String
  description : String
  core_message : String
  key_tags : String
  sector : String
  published_date : String
deriving DecidableEq, Repr

/-- `TechnologyNewsAnalysis(**response_data)`: validation succeeds only
on a dict carrying all six keys with string values (extra keys are
ignored, as pydantic does); any other shape raises and is caught by the
caller, yielding `none`. Non-string coercions are not modelled: the
claims under verification only involve string values. -/
def mkTechAnalysis : JsonVal → Option TechnologyNewsAnalysis
  | .obj fs =>
    match jLookup fs "feed_title", jLookup fs "description",
          jLookup fs "core_message", jLookup fs "key_tags",
          jLookup fs "sector", jLookup fs "published_date" with
    | some (.str ft), some (.str ds), some (.str cm),
      some (.str kt), some (.str sec), some (.str pd) =>
      some ⟨ft, ds, cm, kt, sec, pd⟩
    | _, _, _, _, _, _ => none
  | _ => none

/-- Lookahead of `(?:\n|$)` (consumed group): a newline follows, or the
end of input ( `$` also matches just before a final newline, which the
newline alternative already covers). -/
def nlLookahead (t : List Char) : Bool :=
  match t with
  | [] => true
  | c :: _ => c == '\n'

/-- Lookahead `(?=\nKey Tags:|$)` under `re.IGNORECASE`; `$` in
non-multiline mode matches at the end or just before a final newline. -/
def keyTagsLookahead (t : List Char) : Bool :=
  startsWithCI "\nKey Tags:".data t || t.isEmpty || t == ['\n']

/-- `re.search(label + r'\s*(.+?)' + look, content, DOTALL|IGNORECASE)`
for the patterns of `analyzer.parse_structured_text`. The greedy `\s*`
never backtracks while any character remains (the `$` alternative of
every lookahead used here accepts the end of input), and backtracks by
exactly one whitespace character when `(.+?)` would otherwise have
nothing to consume. A match can only fail to exist when the label is
followed by nothing at all, in which case no later occurrence can
exist either, so anchoring at the first occurrence is faithful. -/
def searchPlusField (label : String) (look : List Char → Bool) (content : String) :
    Option (List Char) :=
  match findCI label.data content.data with
  | none => none
  | some rest =>
    let run := rest.takeWhile isPySpace
    let rest2 := rest.dropWhile isPySpace
    match lazyCapPlus look rest2 with
    | some cap => some cap
    | none =>
      match run.getLast? with
      | some c => some [c]
      | none => none

/-- `analyzer.parse_structured_text`: labeled-text fallback. Builds the
dict exactly as the source does — `published_date` from the argument,
then each matched field, then `setdefault` for the five fallbacks. -/
def parse_structured_text (content : String) (published_date : String) :
    List (String × JsonVal) :=
  let step := fun (data : List (String × JsonVal)) (field label : String)
      (look : List Char → Bool) =>
    match searchPlusField label look content with
    | some cap => insertReplace data field (.str (pyStrip (String.mk cap)))
    | none => data
  let setdef := fun (data : List (String × JsonVal)) (field d : String) =>
    match jLookup data field with
    | some _ => data
    | none => data ++ [(field, JsonVal.str d)]
  let data := [("published_date", JsonVal.str published_date)]
  let data := step data "feed_title" "Feed Title:" nlLookahead
  let data := step data "description" "Description:" nlLookahead
  let data := step data "core_message" "Core Message:" keyTagsLookahead
  let data := step data "key_tags" "Key Tags:" nlLookahead
  let data := step data "sector" "Sector:" nlLookahead
  let data := setdef data "feed_title" "Technology News Update"
  let data := setdef data "description" "Latest technology development"
  let data := setdef data "core_message" "Technology industry update"
  let data := setdef data "key_tags" "technology, news"
  let data := setdef data "sector" "Technology"
  data

/-- Python falsiness filter used between parsing strategies: a falsy
parse result (`None`, `\x7b\x7d`, `0`, `""`, ...) makes
`analyze_news_content` try the next strategy. -/
def truthyOpt (o : Option JsonVal) : Option JsonVal :=
  match o with
  | some v => if jsonTruthy v then some v else none
  | none => none

/-- The `response_data` computed by `analyzer.analyze_news_content` from
the LLM text: direct `json.loads`, then embedded-JSON extraction, then
the labeled-text fallback (which always yields a non-empty dict). -/
def responseData (content : String) (published_date : String) : JsonVal :=
  match truthyOpt (jsonParse content) with
  | some v => v
  | none =>
    match truthyOpt (extract_json_from_text content) with
    | some v => v
    | none => .obj (parse_structured_text content published_date)

/-- `analyzer.analyze_news_content`, with the LLM HTTP call abstracted:
`content` is `raw_response.choices[0].message.content`. Empty content is
rejected up front; the final falsiness check of the source
(`if not response_data: return None`) is kept, and pydantic validation
failure surfaces as `none` through the enclosing `except`. -/
def analyze_news_content (content : String) (published_date : String) :
    Option TechnologyNewsAnalysis :=
  if content = "" then none
  else
    let rd := responseData content published_date
    if jsonTruthy rd then mkTechAnalysis rd else none

/-! ## `src/utils/parser.py` -/

/-- The record built by `parser.parse_analysis_response`. -/
structure AnalysisData where
  feed_title : String
  description : String
  core_message : String
  key_tags : String
  sector : String
  published_date : String
deriving DecidableEq, Repr

/-- Inner scan of the lookahead `[a-z ]+:` under `IGNORECASE`: a run of
letters and spaces (the leading one already consumed by the caller)
ending at a colon. `:` is outside the class, so greediness is
deterministic. -/
def labelColonScan : List Char → Bool
  | [] => false
  | c :: rest => if c == ':' then true else (c.isAlpha || c == ' ') && labelColonScan rest

/-- Lookahead `(?=\n[A-Z][a-z ]+:|$)` under `DOTALL|IGNORECASE` (the
case classes collapse to letters): a newline followed by a letter, at
least one more letter-or-space, and a colon — or the end of input
(`$` also matches just before a final newline). -/
def genLookahead (t : List Char) : Bool :=
  match t with
  | [] => true
  | ['\n'] => true
  | '\n' :: c :: rest =>
    c.isAlpha &&
      (match rest with
       | [] => false
       | c2 :: rest2 => (c2.isAlpha || c2 == ' ') && labelColonScan rest2)
  | _ => false

/-- `re.search(label + r'\s*(.*?)' + look, content, DOTALL|IGNORECASE)`
for the patterns of `parser.parse_analysis_response`. `(.*?)` always
succeeds at the end of input, so `\s*` never backtracks and the first
label occurrence is the match. -/
def pySearchField (label : String) (look : List Char → Bool) (content : String) :
    Option (List Char) :=
  match findCI label.data content.data with
  | none => none
  | some rest => lazyCap look (rest.dropWhile isPySpace)

/-- `parser.parse_analysis_response`: extract the six labeled fields
(empty string when a pattern finds no match), collapse whitespace in a
non-empty `core_message`, and fail when every field came out empty. -/
def parse_analysis_response (content : String) : Option AnalysisData :=
  let get := fun (label : String) (look : List Char → Bool) =>
    match pySearchField label look content with
    | some cap => pyStrip (String.mk cap)
    | none => ""
  let ft := get "Feed Title:" genLookahead
  let ds := get "Description:" genLookahead
  let cm0 := get "Core Message:" keyTagsLookahead
  let kt := get "Key Tags:" genLookahead
  let sec := get "Sector:" genLookahead
  let pd := get "Published Date:" genLookahead
  let cm := if cm0 == "" then cm0 else pyStrip (collapseWs cm0)
  if ft == "" && ds == "" && cm == "" && kt == "" && sec == "" && pd == "" then none
  else some ⟨ft, ds, cm, kt, sec, pd⟩

/-! ## `src/utils/prompt.py` — content extraction and scraping -/

/-- The cleanup chunks of `ArticleScraper._extract_content`: stripped
lines, split on double spaces, stripped again, keeping only chunks that
are non-empty and longer than 3 characters. -/
def cleanChunks (content : String) : List String :=
  let lines := (pySplitLines content).map pyStrip
  let chunks := lines.flatMap (fun l => (pySplit l "  ").map pyStrip)
  chunks.filter (fun c => !(c == "") && decide (3 < c.length))

/-- The text-cleanup stage of `ArticleScraper._extract_content`, applied
to the raw text of the content block selected from the DOM (the
CSS-selector stage runs inside BeautifulSoup and is abstracted into the
`contentText` argument): join the kept chunks with single spaces,
collapse whitespace runs, truncate to 8000 characters. -/
def extract_content (contentText : String) : String :=
  if contentText = "" then ""
  else
    let joined := String.intercalate " " (cleanChunks contentText)
    let collapsed := String.mk (collapseAux joined.data false)
    if collapsed = "" then "" else String.mk (collapsed.data.take 8000)

/-- The components BeautifulSoup extracts from a fetched page before the
cleanup stage: title, the raw text of the selected content block, and
the publication date guess. -/
structure PageData where
  title : String
  contentText : String
  published_date : String
deriving DecidableEq, Repr

/-- The dict returned by `ArticleScraper.scrape_content`. -/
structure ScrapedData where
  title : String
  content : String
  published_date : String
  url : String
deriving DecidableEq, Repr

/-- `ArticleScraper.scrape_content`, with the HTTP fetch and DOM parse
abstracted: `fetched` is `none` when the request raised (timeout,
request error, bad status), otherwise the extracted page components.
Content that is empty or shorter than 100 characters is rejected. -/
def scrape_content (fetched : Option PageData) (url : String) : Option ScrapedData :=
  match fetched with
  | none => none
  | some page =>
    let content := extract_content page.contentText
    if content = "" ∨ content.length < 100 then none
    else some ⟨page.title, content, page.published_date, url⟩

/-! ## `src/utils/prompt.py` — AI response parsing -/

/-- Field keys of `AIAnalyzer._parse_analysis_response`. -/
inductive PromptField where
  | title | description | core_message | key_tags | sector | published_date
deriving DecidableEq, Repr

/-- `field_mappings` of `AIAnalyzer._parse_analysis_response`, in the
source's dict order (the per-line scan breaks at the first prefix that
matches). -/
def fieldMappings : List (String × PromptField) :=
  [("TITLE:", .title), ("DESCRIPTION:", .description),
   ("CORE_MESSAGE:", .core_message), ("KEY_TAGS:", .key_tags),
   ("SECTOR:", .sector), ("PUBLISHED_DATE:", .published_date)]

/-- Python `dict` assignment keyed by `PromptField`. -/
def insertReplaceP (fs : List (PromptField × String)) (k : PromptField) (v : String) :
    List (PromptField × String) :=
  match fs with
  | [] => [(k, v)]
  | (k0, v0) :: rest =>
    if k0 = k then (k0, v) :: rest else (k0, v0) :: insertReplaceP rest k v

def pLookup (fs : List (PromptField × String)) (k : PromptField) : Option String :=
  match fs with
  | [] => none
  | (k0, v0) :: rest => if k0 = k then some v0 else pLookup rest k

/-- Python `str.replace(pat, '')`: delete every non-overlapping
occurrence, scanning left to right. -/
def removeAll (s pat : String) : String :=
  String.intercalate "" (pySplit s pat)

/-- `' '.join(current_content).strip()` as the source saves a finished
field. -/
def saveField (acc : List (PromptField × String)) (cf : Option PromptField)
    (cc : List String) : List (PromptField × String) :=
  match cf, cc with
  | some f, _ :: _ => insertReplaceP acc f (pyStrip (String.intercalate " " cc))
  | _, _ => acc

/-- The per-line loop of `AIAnalyzer._parse_analysis_response`: strip
the line, start a new field at the first matching label prefix (saving
the previous field), otherwise accumulate non-empty lines into the
current field. -/
def promptParseLoop (ls : List String) (cf : Option PromptField)
    (cc : List String) (acc : List (PromptField × String)) :
    List (PromptField × String) :=
  match ls with
  | [] => saveField acc cf cc
  | line :: rest =>
    let line := pyStrip line
    match fieldMappings.find? (fun p => pyStartsWith line p.1) with
    | some (pre, f) =>
      promptParseLoop rest (some f) [pyStrip (removeAll line pre)] (saveField acc cf cc)
    | none =>
      if cf.isSome && !(line == "") then promptParseLoop rest cf (cc ++ [line]) acc
      else promptParseLoop rest cf cc acc

/-- The dict returned by `AIAnalyzer._parse_analysis_response` after
default-filling, used to build `ArticleData`. -/
structure AnalysisDict where
  title : String
  description : String
  core_message : String
  key_tags : String
  sector : String
  published_date : String
deriving DecidableEq, Repr

/-- Default fill of `AIAnalyzer._parse_analysis_response`: a field that
is missing or empty receives its fixed fallback string. -/
def promptDefault (analysis : List (PromptField × String)) (f : PromptField)
    (d : String) : String :=
  match pLookup analysis f with
  | some v => if v == "" then d else v
  | none => d

/-- `AIAnalyzer._parse_analysis_response`: split the response on
newlines, run the labeled-line scan, then fill every missing or empty
field with its fallback. -/
def parse_analysis_response_prompt (text : String) : AnalysisDict :=
  let analysis := promptParseLoop (pySplit text "\n") none [] []
  ⟨promptDefault analysis .title "Title not found",
   promptDefault analysis .description "Description not available",
   promptDefault analysis .core_message "Core message not available",
   promptDefault analysis .key_tags "Tags not available",
   promptDefault analysis .sector "Sector not specified",
   promptDefault analysis .published_date "Not specified"⟩

/-! ## `src/utils/prompt.py` — LLM call and orchestrator -/

/-- Outcome of the single HTTP POST in `AIAnalyzer.analyze_article`:
an exception (timeout or other request error), or a response with a
status code and a body. -/
inductive LLMOutcome where
  | timeout : LLMOutcome
  | netError : LLMOutcome
  | httpResponse : Nat → String → LLMOutcome

/-- Envelope access `result['choices'][0]['message']['content']` plus
the source's guards: `choices` must be present and truthy, element 0
must carry a `message` with a string `content`; every other shape ends
in `return None` either via a guard or via the enclosing `except`. -/
def envelopeContent : JsonVal → Option String
  | .obj fs =>
    match jLookup fs "choices" with
    | some (.arr (first :: _)) =>
      (match first with
       | .obj cfs =>
         (match jLookup cfs "message" with
          | some (.obj mfs) =>
            (match jLookup mfs "content" with
             | some (.str s) => some s
             | _ => none)
          | _ => none)
       | _ => none)
    | _ => none
  | _ => none

/-- Body of `AIAnalyzer.analyze_article` applied to the outcome of its
one request: exceptions, non-200 status, blank body, undecodable JSON
and malformed envelopes all yield `none`; otherwise the parsed analysis
dict (which `_parse_analysis_response` always produces). -/
def handleLLMResponse (r : LLMOutcome) : Option AnalysisDict :=
  match r with
  | .timeout => none
  | .netError => none
  | .httpResponse status body =>
    if status ≠ 200 then none
    else if pyStrip body = "" then none
    else
      match jsonParse body with
      | none => none
      | some v =>
        match envelopeContent v with
        | none => none
        | some text => some (parse_analysis_response_prompt text)

/-- `AIAnalyzer.analyze_article` against a queue of available request
outcomes: exactly the first outcome is consumed — the source performs a
single `requests.post` with no retry — and the rest are left untouched. -/
def analyze_article (env : List LLMOutcome) : Option AnalysisDict × List LLMOutcome :=
  match env with
  | [] => (none, [])
  | r :: rest => (handleLLMResponse r, rest)

/-- The `ArticleData` dataclass. -/
structure ArticleData where
  title : String
  link : String
  published_date : String
  description : String
  core_message : String
  key_tags : String
  sector : String
deriving DecidableEq, Repr

/-- Construction of `ArticleData` from a URL and its analysis dict, as
in `NewsAnalysisWorkflow.process_urls`. -/
def mkArticleData (url : String) (a : AnalysisDict) : ArticleData :=
  ⟨a.title, url, a.published_date, a.description, a.core_message, a.key_tags, a.sector⟩

/-- One iteration of the `process_urls` loop: scrape, then analyze;
`none` marks the item skipped (`continue` in the source). -/
def processOne (scrape : String → Option ScrapedData)
    (analyze : ScrapedData → Option AnalysisDict) (url : String) :
    Option ArticleData :=
  match scrape url with
  | none => none
  | some sd =>
    match analyze sd with
    | none => none
    | some a => some (mkArticleData url a)

/-- `NewsAnalysisWorkflow.process_urls` with its collaborators passed
explicitly; the progress callback and the fixed inter-item sleep have
no effect on the returned list and are omitted. Failed items are
skipped, successes are appended in input order. -/
def process_urls (scrape : String → Option ScrapedData)
    (analyze : ScrapedData → Option AnalysisDict) (urls : List String) :
    List ArticleData :=
  match urls with
  | [] => []
  | u :: rest =>
    match processOne scrape analyze u with
    | none => process_urls scrape analyze rest
    | some art => art :: process_urls scrape analyze rest

/-! ## `src/utils/gsheet_utils.py` -/

/-- An entry handed to `save_analyzed_entries_to_sheets`: the RSS entry
fields plus the analysis state. `feed_title` through `sector` model
`entry["analysis_data"]` (absent values are the empty string, matching
the `.get(..., "")` defaults of the source). -/
structure SheetEntry where
  title : String
  link : String
  published_date : String
  source : String
  analyzed : Bool
  feed_title : String
  description : String
  core_message : String
  key_tags : String
  sector : String
deriving DecidableEq, Repr

/-- The fixed header row of `save_analyzed_entries_to_sheets`. -/
def sheetHeaders : List String :=
  ["Original Title", "Enhanced Title", "Link", "Original Published Date",
   "Description", "Core Message", "Key Tags", "Sector", "Source", "Extracted Date"]

/-- The 10-column row written for one entry. -/
def entryRow (current_date : String) (e : SheetEntry) : List String :=
  [e.title, e.feed_title, e.link, e.published_date, e.description,
   e.core_message, e.key_tags, e.sector, e.source, current_date]

/-- `set(row[2] for row in existing[1:] if len(row) > 2)`: the link
column of the data rows. -/
def linkColumn (rows : List (List String)) : List String :=
  (rows.drop 1).filterMap (fun row => row.get? 2)

/-- `save_analyzed_entries_to_sheets` as a transformation of the
worksheet contents (`existing` is `worksheet.get_all_values()`;
`current_date` abstracts `datetime.utcnow()`): with no entries nothing
happens; a missing or differing header row clears the sheet and writes
the header; analyzed entries whose link is not in the link column of
the (possibly just-cleared) sheet are appended in order. Returns the
final sheet and the count the function reports. -/
def save_analyzed_entries_to_sheets (existing : List (List String))
    (entries : List SheetEntry) (current_date : String) :
    List (List String) × Nat :=
  if entries = [] then (existing, 0)
  else
    let base :=
      if existing = [] ∨ existing.head? ≠ some sheetHeaders then [sheetHeaders]
      else existing
    let links := linkColumn base
    let newRows :=
      (entries.filter (fun e => !(links.contains e.link) && e.analyzed)).map
        (entryRow current_date)
    (base ++ newRows, newRows.length)

/-- The failure conditions of `AIAnalyzer.analyze_article`'s single LLM
call: an exception, a non-200 status, a blank body, an undecodable
body, or a decodable body with a malformed envelope. -/
def llmCallFails : LLMOutcome → Prop
  | .timeout => True
  | .netError => True
  | .httpResponse status body =>
    status ≠ 200 ∨ pyStrip body = "" ∨ jsonParse body = none ∨
    ∃ v, jsonParse body = some v ∧ envelopeContent v = none

/-! ## Helper lemmas -/

theorem collapseAux_true_head (l : List Char) :
    ∀ c t, collapseAux l true = c :: t → isPySpace c = false := by
  induction l with
  | nil => intro c t h; exact List.noConfusion h
  | cons a rest ih =>
    intro c t h
    by_cases ha : isPySpace a = true
    · simp only [collapseAux, ha, if_true] at h
      exact ih c t h
    · simp only [collapseAux, ha, Bool.false_eq_true, if_false] at h
      injection h with h1 h2
      rw [← h1]
      simpa using ha

theorem noWsRunB_collapseAux (l : List Char) : ∀ b, noWsRunB (collapseAux l b) = true := by
  induction l with
  | nil => intro b; rfl
  | cons a rest ih =>
    intro b
    by_cases ha : isPySpace a = true
    · cases b with
      | true => simpa [collapseAux, ha] using ih true
      | false =>
        simp only [collapseAux, ha, if_true, Bool.false_eq_true, if_false]
        cases hX : collapseAux rest true with
        | nil => rfl
        | cons c t =>
          have hc := collapseAux_true_head rest c t hX
          have ht := ih true
          rw [hX] at ht
          simp [noWsRunB, hc, ht]
    · simp only [collapseAux, ha, Bool.false_eq_true, if_false]
      cases hX : collapseAux rest false with
      | nil => rfl
      | cons c t =>
        have ht := ih false
        rw [hX] at ht
        simp [noWsRunB, ha, ht]

theorem noWsRunB_take : ∀ (l : List Char), noWsRunB l = true →
    ∀ n, noWsRunB (l.take n) = true := by
  intro l
  induction l with
  | nil => intro _ n; simp [noWsRunB]
  | cons a rest ih =>
    intro h n
    cases n with
    | zero => rfl
    | succ m =>
      cases rest with
      | nil =>
        simp [List.take, noWsRunB]
      | cons b rest2 =>
        simp only [noWsRunB, Bool.and_eq_true] at h
        cases m with
        | zero => rfl
        | succ k =>
          have htail := ih h.2 (k + 1)
          simp only [List.take_succ_cons] at htail ⊢
          simp only [noWsRunB, Bool.and_eq_true]
          exact ⟨h.1, htail⟩

theorem promptDefault_ne (a : List (PromptField × String)) (f : PromptField)
    (d : String) (hd : d ≠ "") : promptDefault a f d ≠ "" := by
  unfold promptDefault
  cases pLookup a f with
  | none => exact hd
  | some v =>
    cases hv : (v == "") with
    | true => simpa [hv] using hd
    | false =>
      simp only [hv, Bool.false_eq_true, if_false]
      intro he
      rw [he] at hv
      simp at hv

/-! ## Claim theorems -/

/-- C2: `process_urls` drops every item whose scrape or analysis step
fails — the output is exactly the in-order `filterMap` of the per-item
pipeline over the input list — and in the concrete 3-URL batch whose
second URL is rejected at the scrape step, the output has length 2 with
item 1 before item 3. -/
theorem c2_process_urls_order :
    (∀ scrape analyze urls,
      process_urls scrape analyze urls = urls.filterMap (processOne scrape analyze)) ∧
    process_urls (fun u => if u == "u2" then none else some ⟨"T", "body text", "D", u⟩)
      (fun _ => some ⟨"t", "d", "c", "k", "s", "p"⟩) ["u1", "u2", "u3"] =
      [⟨"t", "u1", "p", "d", "c", "k", "s"⟩, ⟨"t", "u3", "p", "d", "c", "k", "s"⟩] := by
  constructor
  · intro scrape analyze urls
    induction urls with
    | nil => rfl
    | cons u rest ih =>
      simp only [process_urls, List.filterMap_cons]
      cases h : processOne scrape analyze u <;> simp [h, ih]
  · rfl

/-- C7: a fetched page whose extracted body text is shorter than 100
characters (which includes the empty case) is rejected by
`scrape_content`, and `process_urls` consequently drops the item from
its output instead of analyzing it. -/
theorem c7_short_content_rejected (page : PageData) (url : String)
    (h : (extract_content page.contentText).length < 100) :
    scrape_content (some page) url = none ∧
    ∀ analyze, process_urls (fun u => scrape_content (some page) u) analyze [url] = [] := by
  have hnone : scrape_content (some page) url = none := by
    simp only [scrape_content]
    rw [if_pos (Or.inr h)]
  refine ⟨hnone, fun analyze => ?_⟩
  simp [process_urls, processOne, hnone]

/-- Witness for C7 at a concrete 4-character body. -/
theorem c7_witness :
    scrape_content (some ⟨"t", "tiny", "d"⟩) "u" = none ∧
    process_urls (fun u => scrape_content (some ⟨"t", "tiny", "d"⟩) u)
      (fun _ => some ⟨"t", "d", "c", "k", "s", "p"⟩) ["u"] = [] := by
  obtain ⟨h1, h2⟩ := c7_short_content_rejected ⟨"t", "tiny", "d"⟩ "u" (by decide)
  exact ⟨h1, h2 _⟩

/-- C8: `analyze_article` consumes exactly one request outcome (no
internal retry), and on timeout, network error, non-200 status, blank
body, undecodable body or malformed envelope it returns `none` rather
than raising. -/
theorem c8_llm_failure_handling (r : LLMOutcome) (rest : List LLMOutcome) :
    (analyze_article (r :: rest)).2 = rest ∧
    (llmCallFails r → (analyze_article (r :: rest)).1 = none) := by
  refine ⟨rfl, fun h => ?_⟩
  cases r with
  | timeout => rfl
  | netError => rfl
  | httpResponse status body =>
    simp only [analyze_article, handleLLMResponse]
    by_cases h200 : status ≠ 200
    · rw [if_pos h200]
    · rw [if_neg h200]
      rcases h with h | h | h | ⟨v, hv, he⟩
      · exact absurd h h200
      · rw [if_pos h]
      · by_cases hb : pyStrip body = ""
        · rw [if_pos hb]
        · rw [if_neg hb, h]
      · by_cases hb : pyStrip body = ""
        · rw [if_pos hb]
        · rw [if_neg hb, hv]
          simp [he]

/-- Witness for C8 at a concrete 500 response. -/
theorem c8_witness :
    (analyze_article [LLMOutcome.httpResponse 500 "x", LLMOutcome.timeout]).2 =
      [LLMOutcome.timeout] ∧
    (analyze_article [LLMOutcome.httpResponse 500 "x", LLMOutcome.timeout]).1 = none := by
  obtain ⟨h1, h2⟩ :=
    c8_llm_failure_handling (LLMOutcome.httpResponse 500 "x") [LLMOutcome.timeout]
  exact ⟨h1, h2 (Or.inl (by decide))⟩

/-- C9: when there are entries to save and the worksheet is empty or its
first row differs from the fixed header, `save_analyzed_entries_to_sheets`
clears the sheet — every previously stored row is deleted — then writes
the header and appends the analyzed entries' rows; the save is not
append-only. -/
theorem c9_header_mismatch_clears (existing : List (List String))
    (entries : List SheetEntry) (cd : String)
    (h1 : existing = [] ∨ existing.head? ≠ some sheetHeaders)
    (h2 : entries ≠ []) :
    (save_analyzed_entries_to_sheets existing entries cd).1 =
      sheetHeaders :: (entries.filter (fun e => e.analyzed)).map (entryRow cd) := by
  simp only [save_analyzed_entries_to_sheets]
  rw [if_neg h2, if_pos h1]
  simp [linkColumn]

/-- Witness for C9: a sheet holding one stale row loses it. -/
theorem c9_witness :
    (save_analyzed_entries_to_sheets [["old", "row"]]
      [⟨"t", "L", "p", "s", true, "f", "d", "c", "k", "sec"⟩] "2024-01-01").1 =
      [sheetHeaders, ["t", "f", "L", "p", "d", "c", "k", "sec", "s", "2024-01-01"]] := by
  rw [c9_header_mismatch_clears [["old", "row"]]
    [⟨"t", "L", "p", "s", true, "f", "d", "c", "k", "sec"⟩] "2024-01-01"
    (Or.inr (by decide)) (by decide)]
  rfl

/-- C3 counterexample: when the first existing row is not the expected
header, the sheet is cleared first and deduplication runs against the
cleared sheet, so an entry whose link already appears in the link
column of the existing rows is appended anyway. -/
theorem c3_counterexample :
    "L" ∈ linkColumn [["bad header"], ["t", "ft", "L", "pd", "d", "cm", "kt", "s", "src", "ed"]] ∧
    (save_analyzed_entries_to_sheets
      [["bad header"], ["t", "ft", "L", "pd", "d", "cm", "kt", "s", "src", "ed"]]
      [⟨"t2", "L", "pd2", "src2", true, "ft2", "d2", "cm2", "kt2", "s2"⟩]
      "2024-01-01").2 = 1 := by
  constructor
  · decide
  · rfl

/-- C3 (amended): provided the worksheet's first row equals the expected
header, an entry whose link is already in the link column is not
appended and each analyzed entry with a new link is appended exactly
once, in order; when the header differs the sheet is cleared first and
the dedupe set is empty. -/
theorem c3_dedupe_with_header (existing : List (List String))
    (entries : List SheetEntry) (cd : String)
    (h : existing.head? = some sheetHeaders) :
    (save_analyzed_entries_to_sheets existing entries cd).1 =
      existing ++ (entries.filter
        (fun e => !((linkColumn existing).contains e.link) && e.analyzed)).map
        (entryRow cd) ∧
    (save_analyzed_entries_to_sheets existing entries cd).2 =
      ((entries.filter
        (fun e => !((linkColumn existing).contains e.link) && e.analyzed)).map
        (entryRow cd)).length := by
  have hne : existing ≠ [] := by
    intro he
    rw [he] at h
    exact Option.noConfusion h
  by_cases h2 : entries = []
  · subst h2
    simp [save_analyzed_entries_to_sheets]
  · simp only [save_analyzed_entries_to_sheets]
    rw [if_neg h2, if_neg (not_or.mpr ⟨hne, not_not_intro h⟩)]
    exact ⟨rfl, rfl⟩

/-- Witness for C3 (amended), the claim's scenario: two analyzed
records, one link already present — exactly one row is appended. -/
theorem c3_witness :
    (save_analyzed_entries_to_sheets
      (sheetHeaders :: [["t", "ft", "A", "pd", "d", "cm", "kt", "s", "src", "ed"]])
      [⟨"t1", "A", "p", "s", true, "f", "d", "c", "k", "x"⟩,
       ⟨"t2", "B", "p", "s", true, "f", "d", "c", "k", "x"⟩] "2024-01-01").2 = 1 := by
  rw [(c3_dedupe_with_header
    (sheetHeaders :: [["t", "ft", "A", "pd", "d", "cm", "kt", "s", "src", "ed"]])
    [⟨"t1", "A", "p", "s", true, "f", "d", "c", "k", "x"⟩,
     ⟨"t2", "B", "p", "s", true, "f", "d", "c", "k", "x"⟩] "2024-01-01" rfl).2]
  rfl

/-- C10 counterexample: the noise filter of `_extract_content` drops
line/double-space-delimited chunks of at most 3 characters, not
whitespace-split words — the body "the cat sat" survives intact even
though each of its space-separated fragments is shorter than 4
characters. -/
theorem c10_counterexample :
    extract_content "the cat sat" = "the cat sat" ∧
    "the" ∈ pySplit (extract_content "the cat sat") " " ∧
    "the".length < 4 := by
  refine ⟨by decide, by decide, by decide⟩

/-- C10 (amended): the text returned by `_extract_content` is at most
8000 characters long and contains no run of consecutive whitespace; the
noise filter guarantees instead that every retained chunk — a stripped
piece obtained by splitting on line breaks and double spaces — has at
least 4 characters (single-space-separated words inside a chunk may be
shorter). -/
theorem c10_cleanup_properties (raw : String) :
    (extract_content raw).length ≤ 8000 ∧
    noWsRunB (extract_content raw).data = true ∧
    ∀ c ∈ cleanChunks raw, 4 ≤ c.length := by
  refine ⟨?_, ?_, ?_⟩
  · by_cases h : raw = ""
    · simp [extract_content, h]
    · simp only [extract_content, if_neg h]
      by_cases h2 : String.mk (collapseAux (String.intercalate " " (cleanChunks raw)).data false) = ""
      · rw [if_pos h2]
        decide
      · rw [if_neg h2]
        show (List.take 8000 _).length ≤ 8000
        exact List.length_take_le 8000 _
  · by_cases h : raw = ""
    · simp [extract_content, h, noWsRunB]
    · simp only [extract_content, if_neg h]
      by_cases h2 : String.mk (collapseAux (String.intercalate " " (cleanChunks raw)).data false) = ""
      · rw [if_pos h2]
        rfl
      · rw [if_neg h2]
        show noWsRunB (List.take 8000 (collapseAux _ false)) = true
        exact noWsRunB_take _ (noWsRunB_collapseAux _ false) 8000
  · intro c hc
    simp only [cleanChunks, List.mem_filter, Bool.and_eq_true, decide_eq_true_eq] at hc
    omega

/-- Witness for C10 (amended) at a concrete document whose single kept
chunk is "abcdefgh". -/
theorem c10_witness :
    (extract_content "abcdefgh").length ≤ 8000 ∧
    noWsRunB (extract_content "abcdefgh").data = true ∧
    4 ≤ "abcdefgh".length := by
  obtain ⟨h1, h2, h3⟩ := c10_cleanup_properties "abcdefgh"
  exact ⟨h1, h2, h3 "abcdefgh" (by decide)⟩

/-- C1 counterexample: `parser.parse_analysis_response` returns a record
whose five unmatched fields are the empty string — they are not filled
with fallback strings. -/
theorem c1_counterexample :
    parse_analysis_response "Feed Title: Hello" =
      some ⟨"Hello", "", "", "", "", ""⟩ := by
  decide

/-- C1 (amended): `AIAnalyzer._parse_analysis_response` (prompt.py) does
fill every missing or empty field with its fixed fallback, so all six
fields of its result are non-empty; `parser.parse_analysis_response`
instead guarantees only that not all six fields are empty — an
individual unmatched field stays the empty string. -/
theorem c1_default_fill (text content : String) (d : AnalysisData) :
    ((parse_analysis_response_prompt text).title ≠ "" ∧
     (parse_analysis_response_prompt text).description ≠ "" ∧
     (parse_analysis_response_prompt text).core_message ≠ "" ∧
     (parse_analysis_response_prompt text).key_tags ≠ "" ∧
     (parse_analysis_response_prompt text).sector ≠ "" ∧
     (parse_analysis_response_prompt text).published_date ≠ "") ∧
    (parse_analysis_response content = some d →
      d ≠ (⟨"", "", "", "", "", ""⟩ : AnalysisData)) := by
  constructor
  · refine ⟨?_, ?_, ?_, ?_, ?_, ?_⟩ <;>
      exact promptDefault_ne _ _ _ (by decide)
  · intro h heq
    subst heq
    simp only [parse_analysis_response] at h
    split at h <;> split at h <;>
      first
        | exact Option.noConfusion h
        | (rename_i hguard
           injection h with h
           injection h with e1 e2 e3 e4 e5 e6
           simp only [e1, e2, e3, e4, e5, e6] at hguard
           simp at hguard)

/-- Witness for C1 (amended) at a concrete prompt response and a
concrete parser record. -/
theorem c1_witness :
    ((parse_analysis_response_prompt "hi").title ≠ "" ∧
     (parse_analysis_response_prompt "hi").description ≠ "" ∧
     (parse_analysis_response_prompt "hi").core_message ≠ "" ∧
     (parse_analysis_response_prompt "hi").key_tags ≠ "" ∧
     (parse_analysis_response_prompt "hi").sector ≠ "" ∧
     (parse_analysis_response_prompt "hi").published_date ≠ "") ∧
    (⟨"Hello", "", "", "", "", ""⟩ : AnalysisData) ≠ (⟨"", "", "", "", "", ""⟩ : AnalysisData) :=
  ⟨(c1_default_fill "hi" "Feed Title: Hello" ⟨"Hello", "", "", "", "", ""⟩).1,
   (c1_default_fill "hi" "Feed Title: Hello" ⟨"Hello", "", "", "", "", ""⟩).2 (by decide)⟩

/-- C4: on an LLM response from which no strategy can populate any field
("hello world" has no JSON and no labels), `analyze_news_content` does
NOT return `none`: `parse_structured_text` default-fills every field, so
the all-default record is produced and the source's hard-failure branch
is unreachable. `parser.parse_analysis_response`, by contrast, does
return `none` on such input, as the claim states. -/
theorem c4_all_default_record :
    analyze_news_content "hello world" "2024-01-01" =
      some ⟨"Technology News Update", "Latest technology development",
            "Technology industry update", "technology, news", "Technology",
            "2024-01-01"⟩ ∧
    parse_analysis_response "no recognizable fields here" = none := by
  exact ⟨by decide, by decide⟩

/-- C5: a response that is a syntactically valid JSON object carrying
all six expected keys as strings is decoded by the direct-JSON strategy
and reproduced exactly — no later strategy alters any value. -/
theorem c5_direct_json_roundtrip (content published_date : String)
    (fs : List (String × JsonVal)) (ft ds cm kt sec pd : String)
    (hp : jsonParse content = some (.obj fs))
    (h1 : jLookup fs "feed_title" = some (.str ft))
    (h2 : jLookup fs "description" = some (.str ds))
    (h3 : jLookup fs "core_message" = some (.str cm))
    (h4 : jLookup fs "key_tags" = some (.str kt))
    (h5 : jLookup fs "sector" = some (.str sec))
    (h6 : jLookup fs "published_date" = some (.str pd)) :
    analyze_news_content content published_date = some ⟨ft, ds, cm, kt, sec, pd⟩ := by
  have hfs : fs ≠ [] := by
    intro h
    subst h
    exact Option.noConfusion h1
  have hc : content ≠ "" := by
    intro h
    subst h
    rw [show jsonParse "" = none from rfl] at hp
    exact Option.noConfusion hp
  have htr : jsonTruthy (.obj fs) = true := by
    simp [jsonTruthy, hfs]
  simp only [analyze_news_content, responseData, truthyOpt, if_neg hc, hp, htr, if_true]
  simp [mkTechAnalysis, h1, h2, h3, h4, h5, h6]

/-- Witness for C5 at a concrete six-key JSON object. -/
theorem c5_witness :
    analyze_news_content
      "\x7b\"feed_title\": \"A\", \"description\": \"B\", \"core_message\": \"C\", \"key_tags\": \"D\", \"sector\": \"E\", \"published_date\": \"F\"\x7d"
      "p" = some ⟨"A", "B", "C", "D", "E", "F"⟩ :=
  c5_direct_json_roundtrip
    "\x7b\"feed_title\": \"A\", \"description\": \"B\", \"core_message\": \"C\", \"key_tags\": \"D\", \"sector\": \"E\", \"published_date\": \"F\"\x7d"
    "p"
    [("feed_title", .str "A"), ("description", .str "B"), ("core_message", .str "C"),
     ("key_tags", .str "D"), ("sector", .str "E"), ("published_date", .str "F")]
    "A" "B" "C" "D" "E" "F" rfl rfl rfl rfl rfl rfl rfl

/-- C6 counterexample: "note \x7b\x7d end" is invalid JSON as a whole
and contains the embedded valid JSON object "\x7b\x7d", which the
extractor does find — yet the pipeline falls through to labeled-text
parsing (the result is the labeled-text default record, with values
taken from no embedded object), because an empty object is Python-falsy. -/
theorem c6_counterexample :
    jsonParse "note \x7b\x7d end" = none ∧
    extract_json_from_text "note \x7b\x7d end" = some (.obj []) ∧
    analyze_news_content "note \x7b\x7d end" "2024-05-05" =
      some ⟨"Technology News Update", "Latest technology development",
            "Technology industry update", "technology, news", "Technology",
            "2024-05-05"⟩ :=
  ⟨rfl, rfl, rfl⟩

/-- C6 (amended): when the whole response is invalid JSON and the
embedded-JSON extractor finds a first parseable object that is non-empty
(Python-truthy), the pipeline uses exactly that object — labeled-text
parsing is not consulted; an empty embedded object instead falls
through. -/
theorem c6_embedded_json_used (content published_date : String) (v : JsonVal)
    (h1 : jsonParse content = none)
    (h2 : extract_json_from_text content = some v)
    (h3 : jsonTruthy v = true) :
    analyze_news_content content published_date = mkTechAnalysis v := by
  have hc : content ≠ "" := by
    intro h
    subst h
    rw [show extract_json_from_text "" = none from rfl] at h2
    exact Option.noConfusion h2
  simp only [analyze_news_content, responseData, truthyOpt, if_neg hc, h1, h2, h3, if_true]

/-- Witness for C6 (amended) at a six-key object embedded in prose. -/
theorem c6_witness :
    analyze_news_content
      "Result: \x7b\"feed_title\": \"A\", \"description\": \"B\", \"core_message\": \"C\", \"key_tags\": \"D\", \"sector\": \"E\", \"published_date\": \"F\"\x7d ok"
      "p" = some ⟨"A", "B", "C", "D", "E", "F"⟩ := by
  rw [c6_embedded_json_used
    "Result: \x7b\"feed_title\": \"A\", \"description\": \"B\", \"core_message\": \"C\", \"key_tags\": \"D\", \"sector\": \"E\", \"published_date\": \"F\"\x7d ok"
    "p"
    (.obj [("feed_title", .str "A"), ("description", .str "B"), ("core_message", .str "C"),
           ("key_tags", .str "D"), ("sector", .str "E"), ("published_date", .str "F")])
    rfl rfl rfl]
  rfl
